import Mathlib

/-!
Shallow embedding of `src/justdail_scraper.py` (class `JustdialScraper`).

The scraper drives a browser over Justdial listing pages.  We embed the
pure decision logic of its methods: DOM lookups become values of a
`Lookup` type (found / NoSuchElementException / other exception), the
per-page scroll loop of `scrape_products` becomes a fuel-indexed state
transition, and the file-name construction of `_save_partial` /
`save_to_excel` becomes string functions.  Python `str.strip`,
`str.lower`, substring containment and `str.startswith` are re-implemented
structurally over `List Char` so that all definitions reduce in the kernel.
-/

namespace Justdial

/-! ## Python string primitives, modelled structurally -/

/-- Python `str.strip` on the character list: drop whitespace at both ends. -/
def stripChars (l : List Char) : List Char :=
  ((l.dropWhile Char.isWhitespace).reverse.dropWhile Char.isWhitespace).reverse

/-- Python `str.strip`. -/
def pyStrip (s : String) : String :=
  String.mk (stripChars s.data)

/-- Does the character list `s` start with `pat`? -/
def startsWithChars : List Char → List Char → Bool
  | [], _ => true
  | _ :: _, [] => false
  | p :: ps, c :: cs => p == c && startsWithChars ps cs

/-- Substring containment over character lists (Python `pat in s`). -/
def containsSeq (pat : List Char) : List Char → Bool
  | [] => pat.isEmpty
  | c :: cs => startsWithChars pat (c :: cs) || containsSeq pat cs

/-- Python `pat in s` on strings. -/
def hasSubstr (s pat : String) : Bool :=
  containsSeq pat.data s.data

/-- Python `str.lower` (per-character lowering). -/
def pyLower (s : String) : String :=
  String.mk (s.data.map Char.toLower)

/-- Python `s.startswith(pre)`. -/
def pyStartsWith (s pre : String) : Bool :=
  startsWithChars pre.data s.data

/-! ## DOM lookups

A Selenium `find_element` call either finds an element, raises
`NoSuchElementException`, or raises some other exception.  The source
distinguishes the last two cases (`except NoSuchElementException` clauses
versus bare `except Exception`), so the embedding does too. -/

/-- Outcome of a Selenium element lookup. -/
inductive Lookup (α : Type) where
  /-- the element was found, carrying the extracted value -/
  | found (val : α)
  /-- `find_element` raised `NoSuchElementException` -/
  | notFound
  /-- `find_element` (or a follow-up access) raised some other exception -/
  | error
  deriving DecidableEq, Repr

/-- The title anchor element of a result box
(`a[class*="resultbox_title_anchorbox"]`): its `href` and `title`
attributes (`get_attribute` may return `None`) and its text. -/
structure Anchor where
  href : Option String
  title : Option String
  text : String
  deriving DecidableEq, Repr

/-- One `div[class*="resultbox_info"]` element as the scraper observes it:
the outcomes of every DOM lookup `get_product_details` / `get_phone_number`
performs on it, plus the wall-clock timestamp at extraction time. -/
structure Product where
  /-- lookup of the title anchor -/
  anchor : Lookup Anchor
  /-- lookup of `li[class*="resultbox_totalrate"]`, carrying its text -/
  rating : Lookup String
  /-- lookup of the `address` tag, carrying its text -/
  address : Lookup String
  /-- lookup of `[class*="greenfill_animate"]`, carrying its text -/
  phoneButton : Lookup String
  /-- text of the first phone locator (`listing_call_button` id or the
  Contact Information sibling XPath) that finds an element after clicking -/
  popupPhone : Lookup String
  /-- `datetime.now().strftime("%Y-%m-%d %H:%M:%S")` at extraction time -/
  now : String
  deriving DecidableEq, Repr

/-- One record appended to `products_data` (the dict built by
`get_product_details`, plus the `product_index` key added by
`scrape_products`). -/
structure ProductData where
  product_index : Nat
  product_title : String
  name : String
  rating : String
  address : String
  phone : String
  url : Option String
  scraped_at : String
  deriving DecidableEq, Repr

/-! ## `get_phone_number` (lines 211-265) -/

/-- `JustdialScraper.get_phone_number`: if the phone button is found and its
stripped text contains "Show Number", click it and read the popup phone
element (or "N/A" when no locator matches or reading raises); otherwise the
stripped button text itself is the phone (empty text falls back to "N/A",
via Python `button_text or "N/A"`).  A missing button
(`NoSuchElementException`) or any other exception yields "N/A". -/
def get_phone_number (p : Product) : String :=
  match p.phoneButton with
  | Lookup.notFound => "N/A"
  | Lookup.error => "N/A"
  | Lookup.found t =>
    let buttonText := pyStrip t
    if hasSubstr buttonText "Show Number" then
      match p.popupPhone with
      | Lookup.found s => pyStrip s
      | Lookup.notFound => "N/A"
      | Lookup.error => "N/A"
    else if buttonText = "" then "N/A" else buttonText

/-! ## `get_product_details` (lines 168-209) -/

/-- Value of a non-anchor field lookup inside `get_product_details`:
found text is stripped, `NoSuchElementException` yields the empty string
(the field's own `except NoSuchElementException` clause), and any other
exception escapes to the outer handler, discarding the record (`none`). -/
def fieldValue : Lookup String → Option String
  | Lookup.found s => some (pyStrip s)
  | Lookup.notFound => some ""
  | Lookup.error => none

/-- `JustdialScraper.get_product_details`: failure to locate the title
anchor (or any exception other than the two per-field
`NoSuchElementException` cases) returns `None`; otherwise a record is
built, with rating/address defaulting to "" when their elements are
missing and the phone obtained from `get_phone_number` (which never
raises). -/
def get_product_details (p : Product) : Option ProductData :=
  match p.anchor with
  | Lookup.notFound => none
  | Lookup.error => none
  | Lookup.found a =>
    match fieldValue p.rating with
    | none => none
    | some rating =>
      match fieldValue p.address with
      | none => none
      | some address =>
        some { product_index := 0
               product_title := a.title.getD ""
               name := a.text
               rating := rating
               address := address
               phone := get_phone_number p
               url := a.href
               scraped_at := p.now }

/-! ## `scrape_products` (lines 268-348)

The loop samples the DOM once per iteration (`find_elements` on
`div[class*="resultbox_info"]`), processes the slice
`products[last_count:]`, breaks when the sampled count equals the previous
iteration's count, and otherwise scrolls, for at most
`max_scroll_attempts` iterations.  A login modal found during the per-item
check raises, which the per-iteration `except` swallows, so the iteration's
slice is skipped but the loop keeps going. -/

/-- One partial-save attempt (`_save_partial` call): the value of
`_partial_save_counter` used for the file name, the length of
`products_data` at the moment of the save, and whether the Excel write
succeeded (a failure is caught and logged, both inside `_save_partial`
and around its call site). -/
structure SaveEvent where
  counter : Nat
  dataLen : Nat
  ok : Bool
  deriving DecidableEq, Repr

/-- Mutable state of one `scrape_products` call: `products_data`,
`last_count`, `_partial_save_counter`, the partial-save attempts made so
far, and the number of `smooth_scroll(800)` stimuli performed. -/
structure LoopState where
  productsData : List ProductData
  lastCount : Nat
  saveCounter : Nat
  saves : List SaveEvent
  scrolls : Nat
  deriving DecidableEq, Repr

/-- Equality of loop states up to the success flags of save attempts:
the fields the scraping control flow and the output records depend on.
The write inside `_save_partial` is wrapped in try/except, so its success
can influence nothing else. -/
def ObsEq (s t : LoopState) : Prop :=
  s.productsData = t.productsData ∧ s.lastCount = t.lastCount ∧
  s.saveCounter = t.saveCounter ∧
  s.saves.map (fun e => (e.counter, e.dataLen)) =
    t.saves.map (fun e => (e.counter, e.dataLen)) ∧
  s.scrolls = t.scrolls

/-- The constructor's chunk-size normalisation (line 62):
`self.chunk_size = max(1, int(chunk_size))`. -/
def initChunkSize (c : Int) : Int := max 1 c

/-- Behaviour of the page (and of the Excel writer) during one
`scrape_products` call: the product elements `find_elements` returns at
iteration `k`, whether the login modal (`login-modal-title`) is present at
iteration `k`, and whether the partial save with counter `c` succeeds. -/
structure PageEnv where
  productsAt : Nat → List Product
  loginAt : Nat → Bool
  saveOkAt : Nat → Bool

/-- Append one successfully extracted record: set `product_index` to the
new length of `products_data`, append, and when the new length is a
multiple of `chunk_size`, increment `_partial_save_counter` and attempt a
partial save (lines 305-315). -/
def appendDetail (chunkSize : Nat) (saveOk : Nat → Bool) (st : LoopState)
    (d : ProductData) : LoopState :=
  let d1 := { d with product_index := st.productsData.length + 1 }
  let data := st.productsData ++ [d1]
  if data.length % chunkSize == 0 then
    { st with productsData := data
              saveCounter := st.saveCounter + 1
              saves := st.saves ++
                [⟨st.saveCounter + 1, data.length, saveOk (st.saveCounter + 1)⟩] }
  else { st with productsData := data }

/-- Handle one product of the slice: append its record when
`get_product_details` succeeds, skip it (keeping the state) when it
returns `None` (lines 304-307). -/
def processItem (chunkSize : Nat) (saveOk : Nat → Bool) (st : LoopState)
    (p : Product) : LoopState :=
  match get_product_details p with
  | none => st
  | some d => appendDetail chunkSize saveOk st d

/-- Process the slice `products[last_count:]` of one iteration (lines
295-319).  If the login modal is present, the check before the first item
raises and the per-iteration handler catches it, so nothing is appended;
otherwise each item is extracted and appended when extraction succeeds. -/
def processSlice (chunkSize : Nat) (saveOk : Nat → Bool) (login : Bool)
    (slice : List Product) (st : LoopState) : LoopState :=
  if login then st
  else slice.foldl (processItem chunkSize saveOk) st

/-- `max_scroll_attempts = 50` (line 275). -/
def max_scroll_attempts : Nat := 50

/-- The `while scroll_attempts < max_scroll_attempts` loop (lines
284-336), with `fuel = max_scroll_attempts - scroll_attempts` and `k` the
iteration index.  Each iteration samples the products, processes the new
slice, exits when `last_count == current_count`, and otherwise updates
`last_count`, scrolls once and continues. -/
def scrapeLoop (env : PageEnv) (chunkSize : Nat) :
    Nat → Nat → LoopState → LoopState
  | 0, _, st => st
  | fuel + 1, k, st =>
    let products := env.productsAt k
    let currentCount := products.length
    let st1 := processSlice chunkSize env.saveOkAt (env.loginAt k)
      (products.drop st.lastCount) st
    if st.lastCount = currentCount then st1
    else
      scrapeLoop env chunkSize fuel (k + 1)
        { st1 with lastCount := currentCount, scrolls := st1.scrolls + 1 }

/-- Initial loop state: empty `products_data`, `last_count = 0`,
`_partial_save_counter = 0`. -/
def initState : LoopState := ⟨[], 0, 0, [], 0⟩

/-- `JustdialScraper.scrape_products` on one URL: run the loop from the
initial state with the full fuel budget.  Every exception path inside the
method is caught (the per-iteration handler and the outer handler both
fall through to `return products_data`), so the call always returns the
final state. -/
def scrape_products (env : PageEnv) (chunkSize : Nat) : LoopState :=
  scrapeLoop env chunkSize max_scroll_attempts 0 initState

/-! ## `read_urls` (lines 88-113), `validate_url` (lines 82-86),
`run` (lines 392-418) -/

/-- `JustdialScraper.validate_url`. -/
def validate_url (url : String) : Bool :=
  hasSubstr (pyLower url) "justdial.com" &&
    (pyStartsWith url "http://" || pyStartsWith url "https://")

/-- The input file as `read_urls` sees it. -/
inductive UrlFile where
  | missing
  | present (lines : List String)

/-- The two lines written to the sample input file when it is missing
(lines 106-107). -/
def sampleFileLines : List String :=
  ["# Add one Justdial URL per line",
   "# Example: https://www.justdial.com/Mumbai/Restaurants"]

/-- Result of `read_urls`: the valid URLs, and whether the sample file was
created (the `FileNotFoundError` branch). -/
structure ReadResult where
  validUrls : List String
  sampleCreated : Bool
  deriving DecidableEq, Repr

/-- `JustdialScraper.read_urls`: on a missing file, log, create the sample
file and return the empty list; otherwise keep, in order, every stripped
line that is non-empty, not a comment and a valid Justdial URL. -/
def read_urls (file : UrlFile) : ReadResult :=
  match file with
  | UrlFile.missing => ⟨[], true⟩
  | UrlFile.present lines =>
    ⟨lines.filterMap (fun line =>
        let url := pyStrip line
        if url = "" || pyStartsWith url "#" then none
        else if validate_url url then some url else none),
     false⟩

/-- `JustdialScraper.run`: read the URLs; when none are valid return
without scraping or saving (`none`); otherwise scrape each URL in order
with `scrape_products` (which never raises), concatenate the results and
save them (`some`). -/
def run (file : UrlFile) (envOf : String → PageEnv) (chunkSize : Nat) :
    Option (List ProductData) :=
  let urls := (read_urls file).validUrls
  if urls.isEmpty then none
  else some ((urls.map
    (fun u => (scrape_products (envOf u) chunkSize).productsData)).flatten)

/-! ## Output file names (`_save_partial` lines 350-369,
`save_to_excel` lines 371-390) -/

/-- File name of the chunk with counter `c` written at timestamp `ts`
(strftime format `%Y%m%d_%H%M%S`, always 15 characters). -/
def chunkFilename (c : Nat) (ts : String) : String :=
  "justdial_results_partial" ++ "_" ++ Nat.repr c ++ "_" ++ ts ++ ".xlsx"

/-- File name of the final export written at timestamp `ts`. -/
def finalFilename (ts : String) : String :=
  "justdial_results_" ++ ts ++ ".xlsx"

/-! ## Spec-side contact extraction, for comparison

Modelled from the spec: the Resolution Stage's digit-run extraction
(spec 4.4/8: read the redirect target and "extract the first run of 10-15
contiguous digits found in that target string as the contact value").
No such extraction exists in the source; this definition follows the
spec's words so the code's `get_phone_number` can be compared with it. -/

/-- Maximal runs of contiguous digits in a character list (`cur` is the
reversed run currently being read). -/
def digitRunsAux : List Char → List Char → List String
  | [], cur => if cur.isEmpty then [] else [String.mk cur.reverse]
  | c :: cs, cur =>
    if c.isDigit then digitRunsAux cs (c :: cur)
    else if cur.isEmpty then digitRunsAux cs []
    else String.mk cur.reverse :: digitRunsAux cs []

/-- Modelled from the spec: the first run of 10-15 contiguous digits in
the target string, if any. -/
def extract_phone_spec (target : String) : Option String :=
  (digitRunsAux target.data []).find?
    (fun r => decide (10 ≤ r.length) && decide (r.length ≤ 15))

/-! ## Concrete inputs used by counterexamples and witnesses -/

/-- A product element on which every lookup succeeds (no phone button, so
the phone falls back to "N/A"). -/
def pOK : Product :=
  { anchor := Lookup.found ⟨some "https://jd/item1", some "T", "T"⟩
    rating := Lookup.found "4.0"
    address := Lookup.found "Addr"
    phoneButton := Lookup.notFound
    popupPhone := Lookup.notFound
    now := "2025-01-01 00:00:00" }

/-- A page on which the same item is observed again at a new position:
one element at iteration 0, the same element twice from iteration 1 on. -/
def dupEnv : PageEnv :=
  { productsAt := fun k => if k = 0 then [pOK] else [pOK, pOK]
    loginAt := fun _ => false
    saveOkAt := fun _ => true }

/-- A redirect target carrying a 12-digit run (the spec's own scenario
value). -/
def waTarget : String := "https://wa.me/911234567890?text=hi"

/-- A product whose phone button reads "Show Number" and whose popup text
is the full `waTarget` string. -/
def showNumberProduct : Product :=
  { anchor := Lookup.found ⟨some "u", some "T", "T"⟩
    rating := Lookup.found "4.0"
    address := Lookup.found "Addr"
    phoneButton := Lookup.found "Show Number"
    popupPhone := Lookup.found waTarget
    now := "t" }

/-- A page with a login modal at iteration 0 only, whose product list
grows from one to two elements. -/
def loginEnv : PageEnv :=
  { productsAt := fun k => if k = 0 then [pOK] else [pOK, pOK]
    loginAt := fun k => k == 0
    saveOkAt := fun _ => true }

/-- A page whose login modal is present at every iteration, with a
constant one-element product list. -/
def loginAlwaysEnv : PageEnv :=
  { productsAt := fun _ => [pOK]
    loginAt := fun _ => true
    saveOkAt := fun _ => true }

/-- A page with a constant one-element product list and no login modal. -/
def constEnv : PageEnv :=
  { productsAt := fun _ => [pOK]
    loginAt := fun _ => false
    saveOkAt := fun _ => true }

/-- `pOK` with the title anchor missing. -/
def badAnchorProduct : Product :=
  { pOK with anchor := Lookup.notFound }

/-- `pOK` with the rating element missing. -/
def ratingMissProduct : Product :=
  { pOK with rating := Lookup.notFound }

/-- `pOK` with the address element missing. -/
def addressMissProduct : Product :=
  { pOK with address := Lookup.notFound }

/-! # Verification -/

theorem appendDetail_productsData (N : Nat) (f : Nat → Bool) (st : LoopState)
    (d : ProductData) :
    (appendDetail N f st d).productsData =
      st.productsData ++ [{ d with product_index := st.productsData.length + 1 }] := by
  unfold appendDetail
  dsimp only
  split <;> rfl

theorem appendDetail_scrolls (N : Nat) (f : Nat → Bool) (st : LoopState)
    (d : ProductData) : (appendDetail N f st d).scrolls = st.scrolls := by
  unfold appendDetail
  dsimp only
  split <;> rfl

theorem appendDetail_lastCount (N : Nat) (f : Nat → Bool) (st : LoopState)
    (d : ProductData) : (appendDetail N f st d).lastCount = st.lastCount := by
  unfold appendDetail
  dsimp only
  split <;> rfl

theorem foldl_processItem_preserve {P : LoopState → Prop} {N : Nat} {f : Nat → Bool}
    (h : ∀ st p, P st → P (processItem N f st p)) :
    ∀ (slice : List Product) (st : LoopState),
      P st → P (slice.foldl (processItem N f) st)
  | [], _, hst => hst
  | p :: ps, st, hst => foldl_processItem_preserve h ps _ (h st p hst)

theorem processSlice_preserve {P : LoopState → Prop} {N : Nat} {f : Nat → Bool}
    (h : ∀ st p, P st → P (processItem N f st p)) (login : Bool)
    (slice : List Product) (st : LoopState) (hst : P st) :
    P (processSlice N f login slice st) := by
  unfold processSlice
  split
  · exact hst
  · exact foldl_processItem_preserve h slice st hst

theorem processItem_scrolls (N : Nat) (f : Nat → Bool) (st : LoopState)
    (p : Product) : (processItem N f st p).scrolls = st.scrolls := by
  unfold processItem
  split
  · rfl
  · exact appendDetail_scrolls ..

theorem processItem_lastCount (N : Nat) (f : Nat → Bool) (st : LoopState)
    (p : Product) : (processItem N f st p).lastCount = st.lastCount := by
  unfold processItem
  split
  · rfl
  · exact appendDetail_lastCount ..

theorem processSlice_scrolls (N : Nat) (f : Nat → Bool) (login : Bool)
    (slice : List Product) (st : LoopState) :
    (processSlice N f login slice st).scrolls = st.scrolls :=
  processSlice_preserve (P := fun s => s.scrolls = st.scrolls)
    (fun s p hs => (processItem_scrolls N f s p).trans hs) login slice st rfl

theorem processSlice_lastCount (N : Nat) (f : Nat → Bool) (login : Bool)
    (slice : List Product) (st : LoopState) :
    (processSlice N f login slice st).lastCount = st.lastCount :=
  processSlice_preserve (P := fun s => s.lastCount = st.lastCount)
    (fun s p hs => (processItem_lastCount N f s p).trans hs) login slice st rfl

theorem scrapeLoop_scrolls_le (env : PageEnv) (N : Nat) :
    ∀ (fuel k : Nat) (st : LoopState),
      (scrapeLoop env N fuel k st).scrolls ≤ st.scrolls + fuel
  | 0, _, st => Nat.le_refl _
  | fuel + 1, k, st => by
    simp only [scrapeLoop]
    split
    · rw [processSlice_scrolls]
      omega
    · refine Nat.le_trans (scrapeLoop_scrolls_le env N fuel (k + 1) _) ?_
      simp only [processSlice_scrolls]
      omega

/-- C2: for every page behaviour, the acquisition loop performs at most the
hard cap of 50 scroll iterations and terminates (the embedding is a total
function), returning the collected records. -/
theorem scrape_products_scroll_cap (env : PageEnv) (N : Nat) :
    (scrape_products env N).scrolls ≤ max_scroll_attempts := by
  have h := scrapeLoop_scrolls_le env N max_scroll_attempts 0 initState
  simpa [initState] using h



theorem appendDetail_index_invariant (N : Nat) (f : Nat → Bool) (st : LoopState)
    (d : ProductData)
    (h : st.productsData.map (fun r => r.product_index) =
      List.range' 1 st.productsData.length) :
    (appendDetail N f st d).productsData.map (fun r => r.product_index) =
      List.range' 1 (appendDetail N f st d).productsData.length := by
  rw [appendDetail_productsData]
  simp only [List.map_append, List.length_append, List.map_cons, List.map_nil,
    List.length_cons, List.length_nil, h]
  rw [List.range'_concat]
  simp
  omega

theorem processItem_index_invariant (N : Nat) (f : Nat → Bool) (st : LoopState)
    (p : Product)
    (h : st.productsData.map (fun r => r.product_index) =
      List.range' 1 st.productsData.length) :
    (processItem N f st p).productsData.map (fun r => r.product_index) =
      List.range' 1 (processItem N f st p).productsData.length := by
  unfold processItem
  split
  · exact h
  · exact appendDetail_index_invariant N f st _ h

theorem scrapeLoop_index_invariant (env : PageEnv) (N : Nat) :
    ∀ (fuel k : Nat) (st : LoopState),
      st.productsData.map (fun r => r.product_index) =
        List.range' 1 st.productsData.length →
      (scrapeLoop env N fuel k st).productsData.map (fun r => r.product_index) =
        List.range' 1 (scrapeLoop env N fuel k st).productsData.length
  | 0, _, _, h => h
  | fuel + 1, k, st, h => by
    simp only [scrapeLoop]
    split
    · exact processSlice_preserve (P := fun s =>
        s.productsData.map (fun r => r.product_index) =
          List.range' 1 s.productsData.length)
        (fun s p hs => processItem_index_invariant N env.saveOkAt s p hs) _ _ _ h
    · exact scrapeLoop_index_invariant env N fuel (k + 1) _
        (processSlice_preserve (P := fun s =>
          s.productsData.map (fun r => r.product_index) =
            List.range' 1 s.productsData.length)
          (fun s p hs => processItem_index_invariant N env.saveOkAt s p hs) _ _ _ h)

/-- C1 (amended): the ResultSet of one page carries a unique, strictly
increasing `product_index` (1..n, in order); the loop performs no
deduplication by item identity. -/
theorem scrape_products_index_unique (env : PageEnv) (N : Nat) :
    (scrape_products env N).productsData.map (fun r => r.product_index) =
      List.range' 1 (scrape_products env N).productsData.length :=
  scrapeLoop_index_invariant env N max_scroll_attempts 0 initState rfl

/-- C1 (counterexample): on a page where the same item is observed again at
a new position, the resulting records duplicate the item (same URL, same
data), so the ResultSet does not contain each item exactly once. -/
theorem scrape_products_no_item_dedup_cex :
    ((scrape_products dupEnv 50).productsData.map (fun d => d.url)) =
      [some "https://jd/item1", some "https://jd/item1"] ∧
    ¬ ((scrape_products dupEnv 50).productsData.map (fun d => d.url)).Nodup :=
  ⟨rfl, by decide⟩

theorem scrapeLoop_stable_stop (env : PageEnv) (N : Nat) (fuel k : Nat)
    (st : LoopState) (h : st.lastCount = (env.productsAt k).length) :
    (scrapeLoop env N fuel k st).scrolls = st.scrolls := by
  cases fuel with
  | zero => rfl
  | succ fuel =>
    simp only [scrapeLoop]
    rw [if_pos h]
    exact processSlice_scrolls ..

theorem scrapeLoop_stable_bound (env : PageEnv) (N : Nat) (i : Nat)
    (hstab : (env.productsAt i).length = (env.productsAt (i + 1)).length) :
    ∀ (fuel k : Nat) (st : LoopState), k ≤ i →
      (scrapeLoop env N fuel k st).scrolls ≤ st.scrolls + (i + 1 - k)
  | 0, _, st, _ => Nat.le_add_right ..
  | fuel + 1, k, st, hk => by
    simp only [scrapeLoop]
    split
    · rw [processSlice_scrolls]
      omega
    · rcases Nat.lt_or_ge k i with hlt | hge
      · refine Nat.le_trans
          (scrapeLoop_stable_bound env N i hstab fuel (k + 1) _ hlt) ?_
        simp only [processSlice_scrolls]
        omega
      · have hki : k = i := Nat.le_antisymm hk hge
        subst hki
        have hstop := scrapeLoop_stable_stop env N fuel (k + 1)
          { processSlice N env.saveOkAt (env.loginAt k)
              ((env.productsAt k).drop st.lastCount) st with
            lastCount := (env.productsAt k).length
            scrolls := (processSlice N env.saveOkAt (env.loginAt k)
              ((env.productsAt k).drop st.lastCount) st).scrolls + 1 }
          (by simpa using hstab)
        rw [hstop]
        simp only [processSlice_scrolls]
        omega

/-- C3: as soon as the product count sampled at one iteration equals the
count of the previous iteration, the loop exits without another scroll:
with equal counts at iterations i and i+1, at most i+1 scrolls happen. -/
theorem scrape_products_stable_exit (env : PageEnv) (N : Nat) (i : Nat)
    (hstab : (env.productsAt i).length = (env.productsAt (i + 1)).length) :
    (scrape_products env N).scrolls ≤ i + 1 := by
  have h := scrapeLoop_stable_bound env N i hstab max_scroll_attempts 0 initState
    (Nat.zero_le i)
  simpa [initState] using h

/-- Witness for C3 at a concrete page with a constant product count. -/
theorem scrape_products_stable_exit_witness :
    (constEnv.productsAt 0).length = (constEnv.productsAt 1).length ∧
    (scrape_products constEnv 50).scrolls ≤ 0 + 1 :=
  ⟨rfl, scrape_products_stable_exit constEnv 50 0 rfl⟩



/-- C4 (counterexample): the code's contact extraction, fed a contact
source string that contains the 10-15 digit run "911234567890", returns
the whole raw string rather than the digit run the spec requires; the
spec-modelled extraction returns the run. -/
theorem get_phone_number_no_digit_run_cex :
    get_phone_number showNumberProduct = waTarget ∧
    extract_phone_spec waTarget = some "911234567890" ∧
    get_phone_number showNumberProduct ≠ "911234567890" :=
  ⟨rfl, rfl, by decide⟩

/-- C4 (amended): when the button reads "Show Number" and a popup phone
element is found, `get_phone_number` returns the popup element's stripped
raw text verbatim; no digit-run extraction (and no HTTP resolution) exists
in the code. -/
theorem get_phone_number_returns_raw_text (p : Product) (t s : String)
    (hb : p.phoneButton = Lookup.found t)
    (hshow : hasSubstr (pyStrip t) "Show Number" = true)
    (hp : p.popupPhone = Lookup.found s) :
    get_phone_number p = pyStrip s := by
  unfold get_phone_number
  rw [hb]
  simp only [hshow, if_true, hp]

/-- Witness for C4's amended theorem at the concrete product. -/
theorem get_phone_number_returns_raw_text_witness :
    showNumberProduct.phoneButton = Lookup.found "Show Number" ∧
    hasSubstr (pyStrip "Show Number") "Show Number" = true ∧
    showNumberProduct.popupPhone = Lookup.found waTarget ∧
    get_phone_number showNumberProduct = pyStrip waTarget :=
  ⟨rfl, rfl, rfl,
   get_phone_number_returns_raw_text showNumberProduct "Show Number" waTarget
     rfl rfl rfl⟩

theorem fieldValue_some (l : Lookup String) (h : l ≠ Lookup.error) :
    ∃ s, fieldValue l = some s := by
  cases l with
  | found s => exact ⟨pyStrip s, rfl⟩
  | notFound => exact ⟨"", rfl⟩
  | error => exact absurd rfl h

/-- C5: when the phone lookup fails (element missing or any other
exception), `get_phone_number` returns the sentinel "N/A" instead of
raising, and the record is still produced with that sentinel, so
processing continues with the next record. -/
theorem get_phone_number_failure_sentinel (p : Product)
    (h : p.phoneButton = Lookup.notFound ∨ p.phoneButton = Lookup.error) :
    get_phone_number p = "N/A" ∧
    (∀ a, p.anchor = Lookup.found a → p.rating ≠ Lookup.error →
      p.address ≠ Lookup.error →
      ∃ d, get_product_details p = some d ∧ d.phone = "N/A") := by
  have hphone : get_phone_number p = "N/A" := by
    rcases h with h | h <;> (unfold get_phone_number; rw [h])
  refine ⟨hphone, ?_⟩
  intro a ha hr had
  obtain ⟨rs, hrs⟩ := fieldValue_some p.rating hr
  obtain ⟨ads, hads⟩ := fieldValue_some p.address had
  unfold get_product_details
  rw [ha, hrs, hads]
  exact ⟨_, rfl, hphone⟩

/-- Witness for C5 at a product whose phone button is missing. -/
theorem get_phone_number_failure_sentinel_witness :
    pOK.phoneButton = Lookup.notFound ∧
    get_phone_number pOK = "N/A" ∧
    (∃ d, get_product_details pOK = some d ∧ d.phone = "N/A") :=
  ⟨rfl,
   (get_phone_number_failure_sentinel pOK (Or.inl rfl)).1,
   (get_phone_number_failure_sentinel pOK (Or.inl rfl)).2
     ⟨some "https://jd/item1", some "T", "T"⟩ rfl (by decide) (by decide)⟩

/-- C6: a missing rating or address element yields the empty sentinel for
that field only, the record still being produced; a missing (or otherwise
failing) title anchor makes `get_product_details` return `None` and the
loop appends nothing for that item. -/
theorem get_product_details_error_boundaries (p : Product) :
    ((p.anchor = Lookup.notFound ∨ p.anchor = Lookup.error) →
      get_product_details p = none ∧
      ∀ (N : Nat) (f : Nat → Bool) (st : LoopState),
        processSlice N f false [p] st = st) ∧
    (∀ a, p.anchor = Lookup.found a → p.address ≠ Lookup.error →
      p.rating = Lookup.notFound →
      ∃ d, get_product_details p = some d ∧ d.rating = "") ∧
    (∀ a, p.anchor = Lookup.found a → p.rating ≠ Lookup.error →
      p.address = Lookup.notFound →
      ∃ d, get_product_details p = some d ∧ d.address = "") := by
  refine ⟨?_, ?_, ?_⟩
  · intro h
    have hnone : get_product_details p = none := by
      rcases h with h | h <;> (unfold get_product_details; rw [h])
    refine ⟨hnone, ?_⟩
    intro N f st
    simp [processSlice, processItem, hnone]
  · intro a ha had hr
    obtain ⟨ads, hads⟩ := fieldValue_some p.address had
    unfold get_product_details
    rw [ha, hr, hads]
    exact ⟨_, rfl, rfl⟩
  · intro a ha hr had
    obtain ⟨rs, hrs⟩ := fieldValue_some p.rating hr
    unfold get_product_details
    rw [ha, hrs, had]
    exact ⟨_, rfl, rfl⟩

/-- Witness for C6 at concrete products with the respective failures. -/
theorem get_product_details_error_boundaries_witness :
    get_product_details badAnchorProduct = none ∧
    processSlice 50 (fun _ => true) false [badAnchorProduct] initState =
      initState ∧
    (∃ d, get_product_details ratingMissProduct = some d ∧ d.rating = "") ∧
    (∃ d, get_product_details addressMissProduct = some d ∧ d.address = "") :=
  ⟨((get_product_details_error_boundaries badAnchorProduct).1 (Or.inl rfl)).1,
   ((get_product_details_error_boundaries badAnchorProduct).1 (Or.inl rfl)).2
     50 (fun _ => true) initState,
   (get_product_details_error_boundaries ratingMissProduct).2.1
     ⟨some "https://jd/item1", some "T", "T"⟩ rfl (by decide) rfl,
   (get_product_details_error_boundaries addressMissProduct).2.2
     ⟨some "https://jd/item1", some "T", "T"⟩ rfl (by decide) rfl⟩

/-- C9: with the input file missing, `read_urls` creates the sample file
(two commented lines, exactly one of which is the example line) and
returns no URLs, and `run` then returns without scraping any page or
producing an output file. -/
theorem read_urls_missing_template :
    read_urls UrlFile.missing = ⟨[], true⟩ ∧
    sampleFileLines.length = 2 ∧
    sampleFileLines.all (fun l => pyStartsWith l "#") = true ∧
    (sampleFileLines.filter (fun l => hasSubstr l "Example")).length = 1 ∧
    ∀ (envOf : String → PageEnv) (N : Nat), run UrlFile.missing envOf N = none :=
  ⟨rfl, rfl, rfl, rfl, fun _ _ => rfl⟩



/-- C7 (counterexample): with a login modal present at iteration 0, the
loop does not abort the current page: it scrolls twice afterwards and
still appends a record at iteration 1. -/
theorem login_barrier_not_page_abort_cex :
    loginEnv.loginAt 0 = true ∧
    (scrape_products loginEnv 50).scrolls = 2 ∧
    (scrape_products loginEnv 50).productsData.length = 1 :=
  ⟨rfl, rfl, rfl⟩

theorem scrapeLoop_login_products (env : PageEnv) (N : Nat)
    (hlogin : ∀ k, env.loginAt k = true) :
    ∀ (fuel k : Nat) (st : LoopState),
      (scrapeLoop env N fuel k st).productsData = st.productsData
  | 0, _, _ => rfl
  | fuel + 1, k, st => by
    simp only [scrapeLoop, processSlice, hlogin k, if_true]
    split
    · rfl
    · exact scrapeLoop_login_products env N hlogin fuel (k + 1) _

/-- C7 (amended): a login barrier is swallowed by the per-iteration
handler: the iteration's slice contributes nothing (while it persists, no
records are collected at all), the per-page loop itself keeps running, and
`run` still processes every URL because `scrape_products` always returns
normally. -/
theorem login_barrier_iteration_skip (env : PageEnv) (N : Nat)
    (hlogin : ∀ k, env.loginAt k = true) :
    (scrape_products env N).productsData = [] ∧
    (∀ (file : UrlFile) (envOf : String → PageEnv) (M : Nat),
      (read_urls file).validUrls ≠ [] → ∃ out, run file envOf M = some out) := by
  constructor
  · exact scrapeLoop_login_products env N hlogin max_scroll_attempts 0 initState
  · intro file envOf M h
    unfold run
    rw [if_neg (by simpa [List.isEmpty_iff] using h)]
    exact ⟨_, rfl⟩

/-- Witness for C7's amended theorem: a page whose login modal never goes
away yields an empty ResultSet, while the batch still completes. -/
theorem login_barrier_iteration_skip_witness :
    (∀ k, loginAlwaysEnv.loginAt k = true) ∧
    (scrape_products loginAlwaysEnv 50).productsData = [] ∧
    (read_urls (UrlFile.present
      ["https://www.justdial.com/Mumbai/Restaurants"])).validUrls ≠ [] ∧
    (∃ out, run (UrlFile.present
      ["https://www.justdial.com/Mumbai/Restaurants"])
      (fun _ => loginAlwaysEnv) 50 = some out) :=
  ⟨fun _ => rfl,
   (login_barrier_iteration_skip loginAlwaysEnv 50 (fun _ => rfl)).1,
   by decide,
   (login_barrier_iteration_skip loginAlwaysEnv 50 (fun _ => rfl)).2
     _ (fun _ => loginAlwaysEnv) 50 (by decide)⟩

/-! ### Decimal numerals are injective (for file-name uniqueness) -/

theorem toDigitsCore_acc (b : Nat) :
    ∀ (fuel n : Nat) (ds : List Char),
      Nat.toDigitsCore b fuel n ds = Nat.toDigitsCore b fuel n [] ++ ds
  | 0, _, _ => rfl
  | fuel + 1, n, ds => by
    simp only [Nat.toDigitsCore]
    split
    · rfl
    · rw [toDigitsCore_acc b fuel (n / b) (Nat.digitChar (n % b) :: ds),
        toDigitsCore_acc b fuel (n / b) [Nat.digitChar (n % b)]]
      simp

theorem toDigitsCore_fuel (b : Nat) (hb : 2 ≤ b) :
    ∀ (fuel1 fuel2 n : Nat), n < fuel1 → n < fuel2 →
      Nat.toDigitsCore b fuel1 n [] = Nat.toDigitsCore b fuel2 n []
  | 0, _, n, h1, _ => absurd h1 (Nat.not_lt_zero n)
  | _ + 1, 0, n, _, h2 => absurd h2 (Nat.not_lt_zero n)
  | fuel1 + 1, fuel2 + 1, n, h1, h2 => by
    simp only [Nat.toDigitsCore]
    split
    · rfl
    · rename_i hn
      rw [toDigitsCore_acc b fuel1 (n / b) [Nat.digitChar (n % b)],
        toDigitsCore_acc b fuel2 (n / b) [Nat.digitChar (n % b)]]
      have hdiv : n / b < n := Nat.div_lt_self
        (by rcases Nat.eq_zero_or_pos n with h | h
            · subst h; simp at hn
            · exact h)
        (Nat.lt_of_lt_of_le (by decide) hb)
      rw [toDigitsCore_fuel b hb fuel1 fuel2 (n / b) (by omega) (by omega)]

theorem toDigits_step (n : Nat) :
    Nat.toDigits 10 n =
      if n < 10 then [Nat.digitChar n]
      else Nat.toDigits 10 (n / 10) ++ [Nat.digitChar (n % 10)] := by
  by_cases h : n < 10
  · rw [if_pos h]
    have h0 : n / 10 = 0 := Nat.div_eq_of_lt h
    have hm : n % 10 = n := Nat.mod_eq_of_lt h
    unfold Nat.toDigits
    simp only [Nat.toDigitsCore, h0, hm]
    simp
  · rw [if_neg h]
    have h0 : n / 10 ≠ 0 := by omega
    have step1 : Nat.toDigits 10 n =
        Nat.toDigitsCore 10 n (n / 10) [Nat.digitChar (n % 10)] := by
      unfold Nat.toDigits
      simp only [Nat.toDigitsCore, if_neg h0]
    rw [step1, toDigitsCore_acc 10 n (n / 10) [Nat.digitChar (n % 10)],
      toDigitsCore_fuel 10 (by decide) n (n / 10 + 1) (n / 10) (by omega)
        (Nat.lt_succ_self _)]
    rfl

theorem toDigits_ne_nil (n : Nat) : Nat.toDigits 10 n ≠ [] := by
  rw [toDigits_step]
  split
  · simp
  · simp

theorem digitChar_inj_lt :
    ∀ m, m < 10 → ∀ n, n < 10 → Nat.digitChar m = Nat.digitChar n → m = n := by
  decide

theorem toDigits_inj (m : Nat) :
    ∀ n, Nat.toDigits 10 m = Nat.toDigits 10 n → m = n := by
  induction m using Nat.strong_induction_on with
  | _ m ih =>
    intro n h
    rw [toDigits_step m, toDigits_step n] at h
    by_cases hm : m < 10 <;> by_cases hn : n < 10
    · rw [if_pos hm, if_pos hn] at h
      injection h with h1 _
      exact digitChar_inj_lt m hm n hn h1
    · rw [if_pos hm, if_neg hn] at h
      have hlen := congrArg List.length h
      simp at hlen
      exact absurd hlen (toDigits_ne_nil _)
    · rw [if_neg hm, if_pos hn] at h
      have hlen := congrArg List.length h
      simp at hlen
      exact absurd hlen (toDigits_ne_nil _)
    · rw [if_neg hm, if_neg hn] at h
      obtain ⟨h1, h2⟩ := List.append_inj' h rfl
      have hd : m / 10 = n / 10 :=
        ih (m / 10) (Nat.div_lt_self (by omega) (by decide)) (n / 10) h1
      have hr : m % 10 = n % 10 :=
        digitChar_inj_lt (m % 10) (Nat.mod_lt m (by decide)) (n % 10)
          (Nat.mod_lt n (by decide)) (by injection h2)
      omega

theorem repr_data_inj (m n : Nat)
    (h : (Nat.repr m).data = (Nat.repr n).data) : m = n := by
  apply toDigits_inj
  simpa [Nat.repr, List.asString] using h

theorem repr_length_pos (n : Nat) : 1 ≤ (Nat.repr n).length := by
  have h := toDigits_ne_nil n
  have : (Nat.repr n).length = (Nat.toDigits 10 n).length := rfl
  rw [this]
  exact Nat.succ_le_of_lt (List.length_pos.mpr h)



/-! ### Partial-save bookkeeping invariant -/

theorem appendDetail_saves_inv (N : Nat) (f : Nat → Bool) (st : LoopState)
    (d : ProductData)
    (h1 : st.saveCounter = st.productsData.length / N)
    (h2 : st.saves.map (fun e => (e.counter, e.dataLen)) =
      (List.range' 1 st.saveCounter).map (fun j => (j, j * N))) :
    (appendDetail N f st d).saveCounter =
        (appendDetail N f st d).productsData.length / N ∧
    (appendDetail N f st d).saves.map (fun e => (e.counter, e.dataLen)) =
      (List.range' 1 (appendDetail N f st d).saveCounter).map
        (fun j => (j, j * N)) := by
  unfold appendDetail
  dsimp only
  split
  case isTrue hmod =>
    have hmod2 : (st.productsData.length + 1) % N = 0 := by
      simpa using hmod
    have hdvd : N ∣ st.productsData.length + 1 :=
      Nat.dvd_of_mod_eq_zero hmod2
    have hdiv : (st.productsData.length + 1) / N =
        st.productsData.length / N + 1 := by
      rw [Nat.succ_div, if_pos hdvd]
    have hmul : (st.saveCounter + 1) * N = st.productsData.length + 1 := by
      rw [h1, ← hdiv]
      exact Nat.div_mul_cancel hdvd
    constructor
    · simp only [List.length_append, List.length_cons, List.length_nil]
      rw [hdiv, h1]
    · simp only [List.map_append, List.map_cons, List.map_nil, h2,
        List.range'_concat, List.length_append, List.length_cons,
        List.length_nil]
      congr 1
      have he : 1 + 1 * st.saveCounter = st.saveCounter + 1 := by omega
      rw [he, hmul]
  case isFalse hmod =>
    have hmod2 : (st.productsData.length + 1) % N ≠ 0 := by
      simpa using hmod
    have hnd : ¬ N ∣ st.productsData.length + 1 := fun hdvd =>
      hmod2 (Nat.mod_eq_zero_of_dvd hdvd)
    have hdiv : (st.productsData.length + 1) / N =
        st.productsData.length / N := by
      rw [Nat.succ_div, if_neg hnd]
      omega
    constructor
    · simp only [List.length_append, List.length_cons, List.length_nil]
      rw [hdiv, h1]
    · exact h2

theorem processItem_saves_inv (N : Nat) (f : Nat → Bool) (st : LoopState)
    (p : Product)
    (h : st.saveCounter = st.productsData.length / N ∧
      st.saves.map (fun e => (e.counter, e.dataLen)) =
        (List.range' 1 st.saveCounter).map (fun j => (j, j * N))) :
    (processItem N f st p).saveCounter =
        (processItem N f st p).productsData.length / N ∧
    (processItem N f st p).saves.map (fun e => (e.counter, e.dataLen)) =
      (List.range' 1 (processItem N f st p).saveCounter).map
        (fun j => (j, j * N)) := by
  unfold processItem
  split
  · exact h
  · exact appendDetail_saves_inv N f st _ h.1 h.2

theorem scrapeLoop_saves_inv (env : PageEnv) (N : Nat) :
    ∀ (fuel k : Nat) (st : LoopState),
      st.saveCounter = st.productsData.length / N ∧
      st.saves.map (fun e => (e.counter, e.dataLen)) =
        (List.range' 1 st.saveCounter).map (fun j => (j, j * N)) →
      (scrapeLoop env N fuel k st).saveCounter =
          (scrapeLoop env N fuel k st).productsData.length / N ∧
      (scrapeLoop env N fuel k st).saves.map (fun e => (e.counter, e.dataLen)) =
        (List.range' 1 (scrapeLoop env N fuel k st).saveCounter).map
          (fun j => (j, j * N))
  | 0, _, _, h => h
  | fuel + 1, k, st, h => by
    simp only [scrapeLoop]
    split
    · exact processSlice_preserve (P := fun s =>
        s.saveCounter = s.productsData.length / N ∧
        s.saves.map (fun e => (e.counter, e.dataLen)) =
          (List.range' 1 s.saveCounter).map (fun j => (j, j * N)))
        (fun s p hs => processItem_saves_inv N env.saveOkAt s p hs) _ _ _ h
    · exact scrapeLoop_saves_inv env N fuel (k + 1) _
        (processSlice_preserve (P := fun s =>
          s.saveCounter = s.productsData.length / N ∧
          s.saves.map (fun e => (e.counter, e.dataLen)) =
            (List.range' 1 s.saveCounter).map (fun j => (j, j * N)))
          (fun s p hs => processItem_saves_inv N env.saveOkAt s p hs) _ _ _ h)

theorem scrape_products_saves_inv (env : PageEnv) (N : Nat) :
    (scrape_products env N).saveCounter =
        (scrape_products env N).productsData.length / N ∧
    (scrape_products env N).saves.map (fun e => (e.counter, e.dataLen)) =
      (List.range' 1 (scrape_products env N).saveCounter).map
        (fun j => (j, j * N)) :=
  scrapeLoop_saves_inv env N max_scroll_attempts 0 initState
    (by constructor <;> simp [initState])

/-! ### File-name uniqueness -/

theorem chunkFilename_counter_inj (c1 c2 : Nat) (t1 t2 : String)
    (hlen : t1.length = t2.length)
    (h : chunkFilename c1 t1 = chunkFilename c2 t2) : c1 = c2 := by
  unfold chunkFilename at h
  have hd := congrArg String.data h
  simp only [String.data_append, List.append_assoc] at hd
  have hd2 := List.append_cancel_left hd
  have hd3 := List.append_cancel_left hd2
  have ht : t1.data.length = t2.data.length := hlen
  obtain ⟨h1, _⟩ := List.append_inj' hd3 (by simp [ht])
  exact repr_data_inj c1 c2 h1

theorem chunkFilename_ne_final (c : Nat) (t1 t2 : String)
    (h1 : t1.length = 15) (h2 : t2.length = 15) :
    chunkFilename c t1 ≠ finalFilename t2 := by
  intro h
  have hl := congrArg String.length h
  simp only [chunkFilename, finalFilename, String.length_append, h1, h2] at hl
  have hr := repr_length_pos c
  have e1 : ("justdial_results_partial" : String).length = 24 := rfl
  have e2 : ("_" : String).length = 1 := rfl
  have e3 : (".xlsx" : String).length = 5 := rfl
  have e4 : ("justdial_results_" : String).length = 17 := rfl
  rw [e1, e2, e3, e4] at hl
  omega

/-! ### Save failures do not influence the run -/

theorem appendDetail_obsEq (N : Nat) (f g : Nat → Bool) (s t : LoopState)
    (d : ProductData) (h : ObsEq s t) :
    ObsEq (appendDetail N f s d) (appendDetail N g t d) := by
  obtain ⟨hp, hl, hc, hs, hr⟩ := h
  unfold ObsEq appendDetail
  dsimp only
  simp only [hp, hl, hc, hr]
  split
  · exact ⟨rfl, rfl, rfl, by simp [hs], rfl⟩
  · exact ⟨rfl, rfl, rfl, hs, rfl⟩

theorem processItem_obsEq (N : Nat) (f g : Nat → Bool) (s t : LoopState)
    (p : Product) (h : ObsEq s t) :
    ObsEq (processItem N f s p) (processItem N g t p) := by
  unfold processItem
  split
  · exact h
  · exact appendDetail_obsEq N f g s t _ h

theorem foldl_processItem_obsEq (N : Nat) (f g : Nat → Bool) :
    ∀ (slice : List Product) (s t : LoopState), ObsEq s t →
      ObsEq (slice.foldl (processItem N f) s) (slice.foldl (processItem N g) t)
  | [], _, _, h => h
  | p :: ps, s, t, h =>
    foldl_processItem_obsEq N f g ps _ _ (processItem_obsEq N f g s t p h)

theorem processSlice_obsEq (N : Nat) (f g : Nat → Bool) (login : Bool)
    (slice : List Product) (s t : LoopState) (h : ObsEq s t) :
    ObsEq (processSlice N f login slice s) (processSlice N g login slice t) := by
  unfold processSlice
  split
  · exact h
  · exact foldl_processItem_obsEq N f g slice s t h

theorem scrapeLoop_obsEq (env : PageEnv) (f : Nat → Bool) (N : Nat) :
    ∀ (fuel k : Nat) (s t : LoopState), ObsEq s t →
      ObsEq (scrapeLoop { env with saveOkAt := f } N fuel k s)
        (scrapeLoop env N fuel k t)
  | 0, _, _, _, h => h
  | fuel + 1, k, s, t, h => by
    have hl : s.lastCount = t.lastCount := h.2.1
    simp only [scrapeLoop]
    rw [hl]
    have hslice := processSlice_obsEq N f env.saveOkAt (env.loginAt k)
      ((env.productsAt k).drop t.lastCount) s t h
    split
    · exact hslice
    · refine scrapeLoop_obsEq env f N fuel (k + 1) _ _ ?_
      exact ⟨hslice.1, rfl, hslice.2.2.1, hslice.2.2.2.1,
        by rw [hslice.2.2.2.2]⟩

theorem scrape_products_obsEq (env : PageEnv) (f : Nat → Bool) (N : Nat) :
    ObsEq (scrape_products { env with saveOkAt := f } N)
      (scrape_products env N) :=
  scrapeLoop_obsEq env f N max_scroll_attempts 0 initState initState
    ⟨rfl, rfl, rfl, rfl, rfl⟩

/-- C8: partial saves are attempted exactly when the record count reaches
a multiple of the chunk size (the j-th save at count j*N, counters
strictly incrementing 1,2,...); chunk file names with distinct counters
are distinct (given the strftime timestamps of equal length) and never
collide with the final file name; and the success or failure of a chunk
write influences neither the collected records nor the rest of the run. -/
theorem chunk_save_properties :
    (∀ (env : PageEnv) (N : Nat),
      (scrape_products env N).saveCounter =
          (scrape_products env N).productsData.length / N ∧
      (scrape_products env N).saves.map (fun e => (e.counter, e.dataLen)) =
        (List.range' 1 (scrape_products env N).saveCounter).map
          (fun j => (j, j * N))) ∧
    (∀ (c1 c2 : Nat) (t1 t2 : String), t1.length = t2.length → c1 ≠ c2 →
      chunkFilename c1 t1 ≠ chunkFilename c2 t2) ∧
    (∀ (c : Nat) (t1 t2 : String), t1.length = 15 → t2.length = 15 →
      chunkFilename c t1 ≠ finalFilename t2) ∧
    (∀ (env : PageEnv) (N : Nat) (f : Nat → Bool),
      ObsEq (scrape_products { env with saveOkAt := f } N)
        (scrape_products env N)) :=
  ⟨fun env N => scrape_products_saves_inv env N,
   fun c1 c2 t1 t2 hlen hne h =>
     hne (chunkFilename_counter_inj c1 c2 t1 t2 hlen h),
   fun c t1 t2 h1 h2 => chunkFilename_ne_final c t1 t2 h1 h2,
   fun env N f => scrape_products_obsEq env f N⟩

/-- Witness for C8 at concrete runs, counters and timestamps. -/
theorem chunk_save_properties_witness :
    ((scrape_products dupEnv 1).saves.map (fun e => (e.counter, e.dataLen)) =
      (List.range' 1 (scrape_products dupEnv 1).saveCounter).map
        (fun j => (j, j * 1))) ∧
    ("20250101_000000" : String).length = ("20250101_000001" : String).length ∧
    (1 : Nat) ≠ 2 ∧
    chunkFilename 1 "20250101_000000" ≠ chunkFilename 2 "20250101_000001" ∧
    chunkFilename 3 "20250101_000000" ≠ finalFilename "20250101_000000" ∧
    ObsEq (scrape_products { dupEnv with saveOkAt := fun _ => false } 1)
      (scrape_products dupEnv 1) :=
  ⟨(chunk_save_properties.1 dupEnv 1).2,
   rfl, by decide,
   chunk_save_properties.2.1 1 2 _ _ rfl (by decide),
   chunk_save_properties.2.2.1 3 _ _ rfl rfl,
   chunk_save_properties.2.2.2 dupEnv 1 (fun _ => false)⟩

/-- C10: the stored chunk size is max(1, chunk_size), hence at least 1 for
every constructor argument including zero and negative values, so the
modulus in the chunk trigger is never zero; and a partial save is
triggered exactly at each positive multiple of the effective chunk size
that the record count reaches. -/
theorem chunk_size_effective_positive :
    (∀ c : Int, 1 ≤ initChunkSize c ∧ (initChunkSize c).toNat ≠ 0) ∧
    initChunkSize 0 = 1 ∧ initChunkSize (-7) = 1 ∧
    (∀ (env : PageEnv) (c : Int),
      (scrape_products env (initChunkSize c).toNat).saves.map
          (fun e => e.dataLen) =
        (List.range' 1 ((scrape_products env
            (initChunkSize c).toNat).productsData.length /
          (initChunkSize c).toNat)).map
          (fun j => j * (initChunkSize c).toNat)) := by
  refine ⟨fun c => ⟨le_max_left 1 c, ?_⟩, rfl, rfl, fun env c => ?_⟩
  · have h : (1 : Int) ≤ max 1 c := le_max_left 1 c
    simp only [initChunkSize]
    omega
  · have h := scrape_products_saves_inv env (initChunkSize c).toNat
    have h2 := congrArg (List.map Prod.snd) h.2
    simp only [List.map_map] at h2
    rw [h.1] at h2
    simpa [Function.comp] using h2


end Justdial
